import Mathlib

/-!
Shallow embedding of `HW2/image_generator.py` (class `ImageGenerator`).

Modelling conventions:
* A raster image (numpy `uint8` array of shape `(height, width, channels)`) is a
  structure carrying its dimensions and a total pixel function
  `px : row → col → channel → ℕ`; stored channel values are naturals and every
  store goes through `pyU8`, the uint8 cast (truncation, reduced mod 256).
* Python / numpy random generators are modelled as streams of rationals in
  `[0, 1)` (the output of `random.random()` resp. the numpy uniform source);
  `random.randint`, `random.uniform`, `np.random.randint` are derived from one
  fresh stream element each, exactly as a uniform integer / uniform real is
  derived from a uniform `[0,1)` draw.  Python floats are modelled as exact
  rationals.
* External cv2 codec operations (`imread`, `resize`, `warpAffine`) and the
  degree cosine/sine used by `cv2.getRotationMatrix2D` are parameters of the
  pipeline, bundled in `Env` together with their documented shape and
  uint8-range contracts (a resize/warp of a uint8 image is a uint8 image of
  exactly the requested size, with the channel count preserved;
  `cv2.IMREAD_COLOR` always produces 3 channels).
* Fallible Python code (a `raise`) is an `Except` value; the error carries the
  generator state at raise time so that "what happened before the raise" is
  observable.
-/

/-- Stream of uniform `[0,1)` draws from one random generator. -/
def RStream : Type := ℕ → ℚ

/-- All draws of the stream lie in `[0, 1)`. -/
def ValidStream (s : RStream) : Prop := ∀ n, 0 ≤ s n ∧ s n < 1

/-- Mutable process-wide state threaded through the pipeline: the `random`
module stream, the `np.random` stream, and the number of calls made so far to
the dataset loader's two path sources. -/
structure GState where
  py : RStream
  np : RStream
  bgCalls : ℕ
  cellCalls : ℕ

/-- Consume `n` draws of the Python `random` stream. -/
def advancePy (st : GState) (n : ℕ) : GState :=
  { st with py := fun i => st.py (i + n) }

/-- Consume `n` draws of the numpy stream. -/
def advanceNp (st : GState) (n : ℕ) : GState :=
  { st with np := fun i => st.np (i + n) }

/-- Both random streams of the state are valid `[0,1)` streams. -/
def GOK (st : GState) : Prop := ValidStream st.py ∧ ValidStream st.np

/-- A raster image: dimensions plus a total pixel function (row, col, channel).
Out-of-range indices are junk, as reads there do not occur in the program. -/
structure Img where
  height : ℕ
  width : ℕ
  channels : ℕ
  px : ℕ → ℕ → ℕ → ℕ

/-- All stored channel values are uint8 values, i.e. at most 255. -/
def Bounded (img : Img) : Prop := ∀ i j c, img.px i j c ≤ 255

/-- A placement produced by `_generate_cell_coords`: the dict `{"h": …, "w": …}`. -/
structure Coord where
  h : ℕ
  w : ℕ

/-- Python exception raised by the modelled code (always a `ValueError`). -/
inductive PyError where
  | valueError (msg : String)
deriving DecidableEq

/-- A 2×3 affine matrix as returned by `cv2.getRotationMatrix2D`. -/
structure Mat2x3 where
  m00 : ℚ
  m01 : ℚ
  m02 : ℚ
  m10 : ℚ
  m11 : ℚ
  m12 : ℚ

/-- Python `int(x)` on a float: truncation toward zero. -/
def pyInt (q : ℚ) : ℤ := if q < 0 then -(⌊-q⌋) else ⌊q⌋

/-- Store a float value into a numpy `uint8` cell: truncate toward zero and
reduce mod 2^8.  Every value the program stores is in `[0, 255]`, where this
is plain truncation. -/
def pyU8 (q : ℚ) : ℕ := (pyInt q).toNat % 256

/-- Python `round(x, 2)`: round to 2 decimal places, ties to even. -/
def pyRound2 (q : ℚ) : ℚ :=
  let m := q * 100
  let f := ⌊m⌋
  let n : ℤ :=
    if m - f > 1/2 then f + 1
    else if m - f < 1/2 then f
    else if f % 2 = 0 then f else f + 1
  (n : ℚ) / 100

/-- Apply a 2×3 affine matrix to a point `(x, y)`. -/
def applyMat (m : Mat2x3) (p : ℚ × ℚ) : ℚ × ℚ :=
  (m.m00 * p.1 + m.m01 * p.2 + m.m02, m.m10 * p.1 + m.m11 * p.2 + m.m12)

/-- Value of `random.randint(a, b)` on a non-empty range: a uniform `[0,1)`
draw scaled to the `b - a + 1` integers of `[a, b]`.  Consumes one draw. -/
def randintVal (a b : ℕ) (st : GState) : ℕ × GState :=
  (a + (⌊st.py 0 * ((b : ℚ) - (a : ℚ) + 1)⌋).toNat, advancePy st 1)

/-- Python `random.randint(a, b)`: raises `ValueError` on an empty range
(`b < a`), before consuming any randomness; otherwise draws `randintVal`. -/
def randint (a b : ℕ) (st : GState) : Except (PyError × GState) (ℕ × GState) :=
  if b < a then .error (.valueError "empty range for randrange()", st)
  else .ok (randintVal a b st)

/-- Python `random.uniform(a, b) = a + (b - a) * random()`. Consumes one draw. -/
def pyuniform (a b : ℚ) (st : GState) : ℚ × GState :=
  (a + (b - a) * st.py 0, advancePy st 1)

/-- Python `random.random()`. Consumes one draw. -/
def pyrandom (st : GState) : ℚ × GState := (st.py 0, advancePy st 1)

/-- External capabilities: the cv2 codec/transform operations the generator
calls, together with their documented shape and uint8-range contracts, and
the degree cosine/sine pair used by `cv2.getRotationMatrix2D`. -/
structure Env where
  imread_color : String → Option Img
  imread_unchanged : String → Option Img
  resize : Img → ℕ → ℕ → Img
  warpAffine : Img → Mat2x3 → ℕ → ℕ → Img
  trig : ℕ → ℚ × ℚ
  imread_color_channels : ∀ p img, imread_color p = some img → img.channels = 3
  imread_color_bounded : ∀ p img, imread_color p = some img → Bounded img
  imread_unchanged_bounded : ∀ p img, imread_unchanged p = some img → Bounded img
  resize_height : ∀ img w h, (resize img w h).height = h
  resize_width : ∀ img w h, (resize img w h).width = w
  resize_channels : ∀ img w h, (resize img w h).channels = img.channels
  resize_bounded : ∀ img w h, Bounded img → Bounded (resize img w h)
  warpAffine_height : ∀ img m w h, (warpAffine img m w h).height = h
  warpAffine_width : ∀ img m w h, (warpAffine img m w h).width = w
  warpAffine_channels : ∀ img m w h, (warpAffine img m w h).channels = img.channels
  warpAffine_bounded : ∀ img m w h, Bounded img → Bounded (warpAffine img m w h)

/-- Every path handed to the codec decodes successfully. -/
def EnvOk (env : Env) : Prop :=
  (∀ p, (env.imread_color p).isSome) ∧ (∀ p, (env.imread_unchanged p).isSome)

/-- The external Asset Provider (`dataset_loader`): the successive paths its
two methods return (its own randomness is folded into the two sequences). -/
structure DatasetLoader where
  bgPath : ℕ → String
  cellPath : ℕ → String

/-- A call to `dataset_loader.get_random_background()`. -/
def get_random_background (dl : DatasetLoader) (st : GState) : String × GState :=
  (dl.bgPath st.bgCalls, { st with bgCalls := st.bgCalls + 1 })

/-- A call to `dataset_loader.get_random_cell()`. -/
def get_random_cell (dl : DatasetLoader) (st : GState) : String × GState :=
  (dl.cellPath st.cellCalls, { st with cellCalls := st.cellCalls + 1 })

/-- Constructor-time configuration of `ImageGenerator` (lines 14-24):
`img_size = (height, width)`, image count, min/max cell count. -/
structure Config where
  img_size : ℕ × ℕ
  num_imgs : ℕ
  min_cells : ℕ
  max_cells : ℕ

/-- Seeding in `ImageGenerator.__init__` (lines 26-28): if a seed is given,
`random.seed(seed)` and `np.random.seed(seed)` replace the process-wide
generator states with the streams the two PRNG algorithms (parameters `prng`,
`nprng`) derive from the seed; without a seed the pre-existing states remain. -/
def seedInit (prng nprng : ℤ → RStream) (seed : Option ℤ) (p0 n0 : RStream) : GState :=
  match seed with
  | some s => ⟨prng s, nprng s, 0, 0⟩
  | none => ⟨p0, n0, 0, 0⟩

/-- Lines 91-109, `_load_image`: decode with `IMREAD_UNCHANGED` when
`with_alpha` else `IMREAD_COLOR`; `None` raises
`ValueError(f"Error: Failed to load image {image_path}")`; optionally resize to
`(img_size[1], img_size[0])`, i.e. width `W`, height `H`. -/
def _load_image (env : Env) (cfg : Config) (image_path : String)
    (rsz with_alpha : Bool) (st : GState) :
    Except (PyError × GState) (Img × GState) :=
  match (if with_alpha then env.imread_unchanged image_path
         else env.imread_color image_path) with
  | none => .error (.valueError ("Error: Failed to load image " ++ image_path), st)
  | some image =>
      .ok ((if rsz then env.resize image cfg.img_size.2 cfg.img_size.1 else image), st)

/-- Upper bound of the row coordinate range in `_generate_cell_coords`:
`img_size[0] - int(img_size[0] * 0.01)` (float 0.01 modelled as 1/100). -/
def coordHBound (cfg : Config) : ℕ :=
  cfg.img_size.1 - (pyInt ((cfg.img_size.1 : ℚ) * (1/100))).toNat

/-- Upper bound of the column coordinate range in `_generate_cell_coords`. -/
def coordWBound (cfg : Config) : ℕ :=
  cfg.img_size.2 - (pyInt ((cfg.img_size.2 : ℚ) * (1/100))).toNat

/-- Lines 83-89, `_generate_cell_coords`: a list of `count` dicts, each with
`h = randint(0, H - int(H*0.01))` then `w = randint(0, W - int(W*0.01))`, in
list-comprehension order.  `randint(0, b)` with `b ≥ 0` never raises, so the
value function `randintVal` is used directly. -/
def _generate_cell_coords (cfg : Config) : ℕ → GState → List Coord × GState
  | 0, st => ([], st)
  | n + 1, st =>
      let (hh, st1) := randintVal 0 (coordHBound cfg) st
      let (ww, st2) := randintVal 0 (coordWBound cfg) st1
      let (rest, st3) := _generate_cell_coords cfg n st2
      (⟨hh, ww⟩ :: rest, st3)

/-- The matrix `cv2.getRotationMatrix2D(center, angle, scale)` builds:
with `c = scale·cos θ`, `s = scale·sin θ` it is
`[[c, s, (1-c)·cx - s·cy], [-s, c, s·cx + (1-c)·cy]]`. -/
def getRotationMatrix2D (trig : ℕ → ℚ × ℚ) (center : ℚ × ℚ) (angle : ℕ)
    (scale : ℚ) : Mat2x3 :=
  let c := scale * (trig angle).1
  let s := scale * (trig angle).2
  ⟨c, s, (1 - c) * center.1 - s * center.2, -s, c, s * center.1 + (1 - c) * center.2⟩

/-- Lines 144-165, `_rotate_cell`: sample `angle = randint(0, 360)`, build the
rotation matrix about `(cell_w // 2, cell_h // 2)`, expand the canvas to
`int(h·|sin| + w·|cos|) × int(h·|cos| + w·|sin|)` (entries `matrix[0,1]`,
`matrix[0,0]`), recenter the translation column, and `warpAffine` onto the new
canvas.  Returns `(rotated, new_h, new_w)`. -/
def _rotate_cell (env : Env) (cell : Img) (cell_h cell_w : ℕ) (st : GState) :
    Except (PyError × GState) ((Img × ℕ × ℕ) × GState) :=
  let center : ℕ × ℕ := (cell_w / 2, cell_h / 2)
  match randint 0 360 st with
  | .error e => .error e
  | .ok (angle, st1) =>
      let matrix := getRotationMatrix2D env.trig ((center.1 : ℚ), (center.2 : ℚ)) angle 1
      let new_w : ℕ := (pyInt ((cell_h : ℚ) * |matrix.m01| + (cell_w : ℚ) * |matrix.m00|)).toNat
      let new_h : ℕ := (pyInt ((cell_h : ℚ) * |matrix.m00| + (cell_w : ℚ) * |matrix.m01|)).toNat
      let matrix2 := { matrix with
        m02 := matrix.m02 + ((new_w : ℚ) / 2 - (center.1 : ℚ)),
        m12 := matrix.m12 + ((new_h : ℚ) / 2 - (center.2 : ℚ)) }
      .ok ((env.warpAffine cell matrix2 new_w new_h, new_h, new_w), st1)

/-- Lines 127-130: clip one dimension of the overlay so that
`offset + size ≤ bound`; `size` is replaced by `bound - offset` (a Python int,
possibly negative) exactly when it overflows. -/
def clipDim (offset size bound : ℕ) : ℤ :=
  if (offset : ℤ) + (size : ℤ) > (bound : ℤ) then (bound : ℤ) - (offset : ℤ)
  else (size : ℤ)

/-- Length of the Python slice `xs[:n]` of a sequence of length `len`
(negative `n` counts from the end; the result is clamped to `[0, len]`). -/
def pySliceLen (len : ℕ) (n : ℤ) : ℕ :=
  (min (if n < 0 then (len : ℤ) + n else n) (len : ℤ)).toNat

/-- Line 132, `cell = cell[:cell_h, :cell_w]`: a view with sliced dimensions
and the same pixel function. -/
def pySlice (img : Img) (nh nw : ℤ) : Img :=
  ⟨pySliceLen img.height nh, pySliceLen img.width nw, img.channels, img.px⟩

/-- Lines 134-141: if the (clipped) cell has 4 channels, write into the
background rows `[h0, h0 + cellH)` and columns `[w0, w0 + cellW)` (each slice
clamped to the array bound, as numpy slices are), per colour channel `c < 3`,
the uint8 store of `(1 - a)·background + a·cell` with
`a = (cell[...,3] / 255) * transparency`; otherwise return the background
untouched. -/
def blendCell (bg cell : Img) (h0 w0 : ℕ) (cellH cellW : ℤ) (t : ℚ) : Img :=
  if cell.channels = 4 then
    { bg with px := fun i j c =>
        if h0 ≤ i ∧ (i : ℤ) < min ((h0 : ℤ) + cellH) (bg.height : ℤ) ∧
           w0 ≤ j ∧ (j : ℤ) < min ((w0 : ℤ) + cellW) (bg.width : ℤ) ∧ c < 3 then
          let a : ℚ := ((cell.px (i - h0) (j - w0) 3 : ℚ) / 255) * t
          pyU8 ((1 - a) * (bg.px i j c : ℚ) + a * (cell.px (i - h0) (j - w0) c : ℚ))
        else bg.px i j c }
  else bg

/-- Lines 111-142, `_overlay`: draw `scale = round(uniform(0.05, 0.20), 2)`,
resize the cell to the square `int(min(img_size) * scale)`, rotate it, clip it
against the background bounds, slice it, and blend. -/
def _overlay (env : Env) (cfg : Config) (background cell : Img) (coord : Coord)
    (transparency : ℚ) (st : GState) :
    Except (PyError × GState) (Img × GState) :=
  let (u, st1) := pyuniform 0.05 0.20 st
  let scale := pyRound2 u
  let cell_size : ℕ := (pyInt ((min cfg.img_size.1 cfg.img_size.2 : ℚ) * scale)).toNat
  let cell1 := env.resize cell cell_size cell_size
  match _rotate_cell env cell1 cell_size cell_size st1 with
  | .error e => .error e
  | .ok ((rotated, cell_h, cell_w), st2) =>
      let cell_h2 := clipDim coord.h cell_h background.height
      let cell_w2 := clipDim coord.w cell_w background.width
      let cell2 := pySlice rotated cell_h2 cell_w2
      .ok (blendCell background cell2 coord.h coord.w cell_h2 cell_w2 transparency, st2)

/-- Numpy assignment `image[i, j] = np.random.randint(0, 256, size=3)`:
replace the three channel values of one pixel. -/
def setPixel3 (img : Img) (i j : ℕ) (d : ℕ → ℕ) : Img :=
  { img with px := fun i2 j2 c =>
      if i2 = i ∧ j2 = j ∧ c < 3 then d c else img.px i2 j2 c }

/-- Body of the double loop in `noise_image` (lines 78-81): one
`random.random()` draw per pixel; on a hit, the pixel's three channels are
replaced by three fresh `np.random.randint(0, 256)` draws. -/
def noisePixel (percent : ℚ) (i j : ℕ) (acc : Img × GState) : Img × GState :=
  let (u, st1) := pyrandom acc.2
  if u < percent / 100 then
    (setPixel3 acc.1 i j (fun c => (⌊st1.np c * 256⌋).toNat), advanceNp st1 3)
  else (acc.1, st1)

/-- Lines 71-81, `noise_image`: row-major double loop over all pixels. -/
def noise_image (image : Img) (percent : ℚ) (st : GState) : Img × GState :=
  (List.range image.height).foldl
    (fun acc i => (List.range image.width).foldl
      (fun acc2 j => noisePixel percent i j acc2) acc)
    (image, st)

/-- Lines 62-69, `_apply_random_noise`: `percent = uniform(1, 50)` (the
comment in the source says 1-5% but the code draws up to 50), then noise. -/
def _apply_random_noise (image : Img) (st : GState) : Img × GState :=
  let (noise_percent, st1) := pyuniform 1 50 st
  noise_image image noise_percent st1

/-- Lines 53-56, the per-cell loop of `_generate_image`: for each placement,
fetch a cell path, load it with alpha and a resize to `(W, H)`, draw
`transparency = uniform(0.6, 1.0)`, and overlay. -/
def cellLoop (env : Env) (cfg : Config) (dl : DatasetLoader) :
    List Coord → Img → GState → Except (PyError × GState) (Img × GState)
  | [], bg, st => .ok (bg, st)
  | coord :: rest, bg, st =>
      let (p, st1) := get_random_cell dl st
      match _load_image env cfg p true true st1 with
      | .error e => .error e
      | .ok (cell, st2) =>
          let (t, st3) := pyuniform 0.6 1.0 st2
          match _overlay env cfg bg cell coord t st3 with
          | .error e => .error e
          | .ok (bg2, st4) => cellLoop env cfg dl rest bg2 st4

/-- Lines 43-60, `_generate_image`: sample the cell count, the placements,
load and resize the background (3-channel), run the cell loop, apply noise. -/
def _generate_image (env : Env) (cfg : Config) (dl : DatasetLoader) (st : GState) :
    Except (PyError × GState) (Img × GState) :=
  match randint cfg.min_cells cfg.max_cells st with
  | .error e => .error e
  | .ok (num_cells, st1) =>
      let (coords, st2) := _generate_cell_coords cfg num_cells st1
      let (bgp, st3) := get_random_background dl st2
      match _load_image env cfg bgp true false st3 with
      | .error e => .error e
      | .ok (background, st4) =>
          match cellLoop env cfg dl coords background st4 with
          | .error e => .error e
          | .ok (bg2, st5) =>
              let (img, st6) := _apply_random_noise bg2 st5
              .ok (img, st6)

/-- The loop of `generate_and_save` (lines 39-41): produce images until the
count is reached or an exception propagates; an exception aborts the run and
the images already produced (and written) are kept. -/
def genLoop (env : Env) (cfg : Config) (dl : DatasetLoader) :
    ℕ → GState → List Img × Option (PyError × GState)
  | 0, _ => ([], none)
  | n + 1, st =>
      match _generate_image env cfg dl st with
      | .error e => ([], some e)
      | .ok (img, st1) =>
          let (rest, err) := genLoop env cfg dl n st1
          (img :: rest, err)

/-- Lines 30-41, `generate_and_save`: the sequence of images produced (file
naming and directory creation are external side effects outside the model). -/
def generate_and_save (env : Env) (cfg : Config) (dl : DatasetLoader)
    (st : GState) : List Img × Option (PyError × GState) :=
  genLoop env cfg dl cfg.num_imgs st

/-! Basic lemmas about the state and the random primitives. -/

theorem advancePy_advancePy (st : GState) (m n : ℕ) :
    advancePy (advancePy st m) n = advancePy st (n + m) := by
  simp only [advancePy]
  congr 1
  funext i
  exact congrArg st.py (by omega)

theorem advancePy_zero (st : GState) : advancePy st 0 = st := rfl

theorem GOK_advancePy (st : GState) (n : ℕ) (h : GOK st) : GOK (advancePy st n) :=
  ⟨fun k => h.1 (k + n), h.2⟩

theorem GOK_advanceNp (st : GState) (n : ℕ) (h : GOK st) : GOK (advanceNp st n) :=
  ⟨h.1, fun k => h.2 (k + n)⟩

/-- A uniform `[0,1)` draw scaled to `m + 1` integers lands in `[0, m]`. -/
theorem drawNat_le (u : ℚ) (h0 : 0 ≤ u) (h1 : u < 1) (m : ℕ) :
    (⌊u * ((m : ℚ) + 1)⌋).toNat ≤ m := by
  have hlt : ⌊u * ((m : ℚ) + 1)⌋ < (m : ℤ) + 1 := by
    apply Int.floor_lt.mpr
    push_cast
    nlinarith
  omega

/-- Every integer of `[0, m]` is hit by some uniform `[0,1)` draw. -/
theorem drawNat_surj (m v : ℕ) (hv : v ≤ m) :
    ∃ u : ℚ, 0 ≤ u ∧ u < 1 ∧ (⌊u * ((m : ℚ) + 1)⌋).toNat = v := by
  refine ⟨(v : ℚ) / ((m : ℚ) + 1), by positivity, ?_, ?_⟩
  · rw [div_lt_one (by positivity)]
    push_cast
    have : (v : ℚ) ≤ (m : ℚ) := by exact_mod_cast hv
    linarith
  · rw [div_mul_cancel₀ _ (by positivity : ((m : ℚ) + 1) ≠ 0)]
    simp

theorem randintVal_le (a b : ℕ) (st : GState) (hab : a ≤ b) (hv : ValidStream st.py) :
    (randintVal a b st).1 ≤ b := by
  obtain ⟨h0, h1⟩ := hv 0
  have hcast : ((b : ℚ) - (a : ℚ) + 1) = (((b - a : ℕ) : ℚ) + 1) := by
    push_cast [hab]
    ring
  have := drawNat_le (st.py 0) h0 h1 (b - a)
  simp only [randintVal, hcast]
  omega

/-! Concrete fixtures used by the witness theorems. -/

/-- Constant 3-channel 1×1 image. -/
def constImg : Img := ⟨1, 1, 3, fun _ _ _ => 0⟩

/-- Constant 4-channel (fully opaque) 1×1 image. -/
def constImg4 : Img := ⟨1, 1, 4, fun _ _ c => if c = 3 then 255 else 7⟩

/-- A concrete environment whose codec always decodes. -/
def envT : Env where
  imread_color := fun _ => some constImg
  imread_unchanged := fun _ => some constImg4
  resize := fun img w h => ⟨h, w, img.channels, img.px⟩
  warpAffine := fun img _ w h => ⟨h, w, img.channels, fun _ _ _ => 0⟩
  trig := fun _ => (1, 0)
  imread_color_channels := by
    intro p img h
    injection h with h
    rw [← h]
    rfl
  imread_color_bounded := by
    intro p img h
    injection h with h
    rw [← h]
    intro i j c
    norm_num [constImg]
  imread_unchanged_bounded := by
    intro p img h
    injection h with h
    rw [← h]
    intro i j c
    simp only [constImg4]
    split <;> norm_num
  resize_height := fun _ _ _ => rfl
  resize_width := fun _ _ _ => rfl
  resize_channels := fun _ _ _ => rfl
  resize_bounded := fun _ _ _ hb => hb
  warpAffine_height := fun _ _ _ _ => rfl
  warpAffine_width := fun _ _ _ _ => rfl
  warpAffine_channels := fun _ _ _ _ => rfl
  warpAffine_bounded := by
    intro img m w h _
    intro i j c
    norm_num

/-- A concrete stubbed loader. -/
def dlT : DatasetLoader := ⟨fun _ => "bg.png", fun _ => "cell.png"⟩

/-- A concrete state whose streams are constantly 0. -/
def stT : GState := ⟨fun _ => 0, fun _ => 0, 0, 0⟩

theorem stT_GOK : GOK stT :=
  ⟨fun _ => by constructor <;> norm_num [stT], fun _ => by constructor <;> norm_num [stT]⟩

theorem envT_ok : EnvOk envT :=
  ⟨fun _ => rfl, fun _ => rfl⟩

/-! Claim C8. -/

/-- C8: with a fixed integer seed supplied at construction (so that
`random.seed` and `np.random.seed` overwrite the process-wide generator
states) and a deterministic stubbed Asset Provider, two independent generation
runs — whatever the generator states were beforehand — produce identical
sequences of output images, including every per-image random choice. -/
theorem C8_seeded_runs_identical (env : Env) (cfg : Config) (dl : DatasetLoader)
    (prng nprng : ℤ → RStream) (k : ℤ) (p0 n0 p1 n1 : RStream) :
    generate_and_save env cfg dl (seedInit prng nprng (some k) p0 n0) =
    generate_and_save env cfg dl (seedInit prng nprng (some k) p1 n1) := rfl

/-! Claim C10. -/

/-- C10: with `min_cells > max_cells`, generating an image fails at the
cell-count `randint` with a `ValueError`, the state at the raise is the entry
state (so no asset was requested from the loader and no randomness was
consumed), and the whole run produces no image. -/
theorem C10_min_gt_max_fails_before_assets (env : Env) (cfg : Config)
    (dl : DatasetLoader) (st : GState) (h : cfg.max_cells < cfg.min_cells) :
    _generate_image env cfg dl st =
      .error (.valueError "empty range for randrange()", st) ∧
    (0 < cfg.num_imgs →
      generate_and_save env cfg dl st =
        ([], some (.valueError "empty range for randrange()", st))) := by
  have h1 : _generate_image env cfg dl st =
      .error (.valueError "empty range for randrange()", st) := by
    simp [_generate_image, randint, h]
  refine ⟨h1, fun hn => ?_⟩
  obtain ⟨n, hn'⟩ : ∃ n, cfg.num_imgs = n + 1 := ⟨cfg.num_imgs - 1, by omega⟩
  simp [generate_and_save, hn', genLoop, h1]

/-- Witness for C10 at a concrete misconfiguration (`min_cells = 2 > 1 =
max_cells`). -/
theorem C10_witness :
    _generate_image envT ⟨(4, 4), 1, 2, 1⟩ dlT stT =
      .error (.valueError "empty range for randrange()", stT) ∧
    (0 < (1 : ℕ) →
      generate_and_save envT ⟨(4, 4), 1, 2, 1⟩ dlT stT =
        ([], some (.valueError "empty range for randrange()", stT))) :=
  C10_min_gt_max_fails_before_assets envT ⟨(4, 4), 1, 2, 1⟩ dlT stT (by norm_num)

/-! State bookkeeping lemmas for the coordinate sampler. -/

theorem advancePy_bgCalls (st : GState) (n : ℕ) : (advancePy st n).bgCalls = st.bgCalls := rfl

theorem advancePy_cellCalls (st : GState) (n : ℕ) : (advancePy st n).cellCalls = st.cellCalls := rfl

theorem ValidStream_advancePy (st : GState) (n : ℕ) (h : ValidStream st.py) :
    ValidStream (advancePy st n).py := fun k => h (k + n)

theorem coords_state (cfg : Config) (n : ℕ) (st : GState) :
    (_generate_cell_coords cfg n st).2 = advancePy st (2 * n) := by
  induction n generalizing st with
  | zero => simp [_generate_cell_coords, advancePy_zero]
  | succ k ih =>
      simp only [_generate_cell_coords, randintVal]
      rw [ih, advancePy_advancePy, advancePy_advancePy]
      have e : 2 * k + 1 + 1 = 2 * (k + 1) := by omega
      rw [e]

theorem coords_length (cfg : Config) (n : ℕ) (st : GState) :
    ((_generate_cell_coords cfg n st).1).length = n := by
  induction n generalizing st with
  | zero => rfl
  | succ k ih => simp [_generate_cell_coords, ih]

theorem coords_get (cfg : Config) (n : ℕ) (st : GState) :
    ∀ i, i < n → ((_generate_cell_coords cfg n st).1).get? i =
      some ⟨(randintVal 0 (coordHBound cfg) (advancePy st (2 * i))).1,
            (randintVal 0 (coordWBound cfg) (advancePy st (2 * i + 1))).1⟩ := by
  induction n generalizing st with
  | zero => omega
  | succ k ih =>
      intro i hi
      cases i with
      | zero =>
          simp only [_generate_cell_coords, List.get?]
          rw [show 2 * 0 = 0 by rfl, advancePy_zero]
          rfl
      | succ i2 =>
          have step : ((_generate_cell_coords cfg (k + 1) st).1).get? (i2 + 1) =
              ((_generate_cell_coords cfg k (advancePy st 2)).1).get? i2 := rfl
          rw [step, ih (advancePy st 2) i2 (by omega), advancePy_advancePy,
            advancePy_advancePy]
          have e1 : 2 * i2 + 2 = 2 * (i2 + 1) := by omega
          have e2 : 2 * i2 + 1 + 2 = 2 * (i2 + 1) + 1 := by omega
          rw [e1, e2]

theorem coords_bounds (cfg : Config) (n : ℕ) (st : GState) (hv : ValidStream st.py) :
    ∀ coord ∈ (_generate_cell_coords cfg n st).1,
      coord.h ≤ coordHBound cfg ∧ coord.w ≤ coordWBound cfg := by
  induction n generalizing st with
  | zero => simp [_generate_cell_coords]
  | succ k ih =>
      intro coord hmem
      simp only [_generate_cell_coords, List.mem_cons] at hmem
      rcases hmem with h | h
      · subst h
        constructor
        · exact randintVal_le 0 _ st (Nat.zero_le _) hv
        · exact randintVal_le 0 _ (advancePy st 1) (Nat.zero_le _)
            (ValidStream_advancePy st 1 hv)
      · exact ih (advancePy st 2) (ValidStream_advancePy st 2 hv) coord h

/-! Claim C3 (corrected): the code truncates `0.01·H` with `int()` (floor),
it does not take the ceiling. -/

/-- C3 counterexample: at the default image size `(480, 640)` the code's row
bound is `480 - int(480·0.01) = 476`, and the draw `476/477` actually produces
the row offset 476; the claimed bound `480 - ceil(480·0.01) = 475` excludes
it. -/
theorem C3_counterexample :
    ((_generate_cell_coords ⟨(480, 640), 5, 5, 25⟩ 1
        ⟨fun _ => 476/477, fun _ => 0, 0, 0⟩).1).map Coord.h = [476] ∧
    ¬ ((476 : ℤ) ≤ 480 - ⌈(480 : ℚ) * (1/100)⌉) := by
  constructor
  · have hb : coordHBound ⟨(480, 640), 5, 5, 25⟩ = 476 := by
      norm_num [coordHBound, pyInt]
      decide
    simp only [_generate_cell_coords, randintVal, hb, List.map_cons, List.map_nil]
    have hf : (⌊(476/477 : ℚ) * ((476 : ℕ) - (0 : ℕ) + 1)⌋ : ℤ) = 476 := by
      norm_num
    rw [hf]
    decide
  · have hc : (⌈(480 : ℚ) * (1/100)⌉ : ℤ) = 5 := by
      rw [show ((480 : ℚ) * (1/100)) = 24/5 by norm_num, Int.ceil_eq_iff]
      constructor <;> norm_num
    rw [hc]
    norm_num

/-- C3 (amended): for each generated image the `count` placements are sampled
independently with replacement — placement `i` is computed from its own two
fresh stream draws (the stream advanced by `2·i`) — each row a uniform integer
in `[0, H - int(0.01·H)]` and each column a uniform integer in
`[0, W - int(0.01·W)]` (truncation, not ceiling): the list has length `count`,
every entry respects those bounds, and every integer of either range is
attained by some uniform `[0,1)` draw. -/
theorem C3_coords_uniform_floor (cfg : Config) (count : ℕ) (st : GState)
    (hv : ValidStream st.py) :
    ((_generate_cell_coords cfg count st).1).length = count ∧
    (∀ coord ∈ (_generate_cell_coords cfg count st).1,
        coord.h ≤ coordHBound cfg ∧ coord.w ≤ coordWBound cfg) ∧
    (∀ i, i < count → ((_generate_cell_coords cfg count st).1).get? i =
        some ⟨(randintVal 0 (coordHBound cfg) (advancePy st (2 * i))).1,
              (randintVal 0 (coordWBound cfg) (advancePy st (2 * i + 1))).1⟩) ∧
    (∀ b v : ℕ, v ≤ b → ∃ u : ℚ, 0 ≤ u ∧ u < 1 ∧
        (randintVal 0 b ⟨fun _ => u, st.np, st.bgCalls, st.cellCalls⟩).1 = v) := by
  refine ⟨coords_length cfg count st, coords_bounds cfg count st hv,
    coords_get cfg count st, fun b v hvb => ?_⟩
  obtain ⟨u, h0, h1, hu⟩ := drawNat_surj b v hvb
  refine ⟨u, h0, h1, ?_⟩
  simp only [randintVal]
  rw [show ((b : ℚ) - (0 : ℕ) + 1) = (b : ℚ) + 1 by push_cast; ring]
  omega

/-- Witness for the amended C3 at the default configuration and the constant
zero stream. -/
theorem C3_witness :
    ((_generate_cell_coords ⟨(480, 640), 5, 5, 25⟩ 2 stT).1).length = 2 ∧
    (∀ coord ∈ (_generate_cell_coords ⟨(480, 640), 5, 5, 25⟩ 2 stT).1,
        coord.h ≤ coordHBound ⟨(480, 640), 5, 5, 25⟩ ∧
        coord.w ≤ coordWBound ⟨(480, 640), 5, 5, 25⟩) ∧
    (∀ i, i < 2 → ((_generate_cell_coords ⟨(480, 640), 5, 5, 25⟩ 2 stT).1).get? i =
        some ⟨(randintVal 0 (coordHBound ⟨(480, 640), 5, 5, 25⟩) (advancePy stT (2 * i))).1,
              (randintVal 0 (coordWBound ⟨(480, 640), 5, 5, 25⟩) (advancePy stT (2 * i + 1))).1⟩) ∧
    (∀ b v : ℕ, v ≤ b → ∃ u : ℚ, 0 ≤ u ∧ u < 1 ∧
        (randintVal 0 b ⟨fun _ => u, stT.np, stT.bgCalls, stT.cellCalls⟩).1 = v) :=
  C3_coords_uniform_floor ⟨(480, 640), 5, 5, 25⟩ 2 stT stT_GOK.1

/-! Lemmas about the blend step and the overlay operation. -/

theorem pyU8_le (q : ℚ) : pyU8 q ≤ 255 :=
  Nat.lt_succ_iff.mp (Nat.mod_lt _ (by norm_num))

theorem blendCell_height (bg cell : Img) (h0 w0 : ℕ) (ch cw : ℤ) (t : ℚ) :
    (blendCell bg cell h0 w0 ch cw t).height = bg.height := by
  unfold blendCell
  split <;> rfl

theorem blendCell_width (bg cell : Img) (h0 w0 : ℕ) (ch cw : ℤ) (t : ℚ) :
    (blendCell bg cell h0 w0 ch cw t).width = bg.width := by
  unfold blendCell
  split <;> rfl

theorem blendCell_channels (bg cell : Img) (h0 w0 : ℕ) (ch cw : ℤ) (t : ℚ) :
    (blendCell bg cell h0 w0 ch cw t).channels = bg.channels := by
  unfold blendCell
  split <;> rfl

theorem blendCell_of_channels_ne (bg cell : Img) (h0 w0 : ℕ) (ch cw : ℤ) (t : ℚ)
    (h : cell.channels ≠ 4) : blendCell bg cell h0 w0 ch cw t = bg := by
  unfold blendCell
  rw [if_neg h]

theorem blendCell_frame (bg cell : Img) (h0 w0 : ℕ) (ch cw : ℤ) (t : ℚ) (i j c : ℕ)
    (h : ¬(h0 ≤ i ∧ (i : ℤ) < min ((h0 : ℤ) + ch) (bg.height : ℤ) ∧
          w0 ≤ j ∧ (j : ℤ) < min ((w0 : ℤ) + cw) (bg.width : ℤ) ∧ c < 3)) :
    (blendCell bg cell h0 w0 ch cw t).px i j c = bg.px i j c := by
  unfold blendCell
  split
  · dsimp only
    rw [if_neg h]
  · rfl

theorem blendCell_bounded (bg cell : Img) (h0 w0 : ℕ) (ch cw : ℤ) (t : ℚ)
    (hbg : Bounded bg) : Bounded (blendCell bg cell h0 w0 ch cw t) := by
  intro i j c
  unfold blendCell
  split
  · dsimp only
    split
    · exact pyU8_le _
    · exact hbg i j c
  · exact hbg i j c

/-- The angle `_rotate_cell` samples (Python `random.randint(0, 360)`). -/
def rotAngle (st : GState) : ℕ := (randintVal 0 360 st).1

/-- The rotation center `(cell_w // 2, cell_h // 2)` as a rational point. -/
def rotCenter (cell_h cell_w : ℕ) : ℚ × ℚ :=
  (((cell_w / 2 : ℕ) : ℚ), ((cell_h / 2 : ℕ) : ℚ))

/-- The matrix `cv2.getRotationMatrix2D(center, angle, 1.0)` of `_rotate_cell`. -/
def rotMatrixBase (env : Env) (cell_h cell_w : ℕ) (angle : ℕ) : Mat2x3 :=
  getRotationMatrix2D env.trig (rotCenter cell_h cell_w) angle 1

/-- The expanded canvas width `int(h·|m01| + w·|m00|)` of `_rotate_cell`. -/
def rotNewW (env : Env) (cell_h cell_w : ℕ) (angle : ℕ) : ℕ :=
  (pyInt ((cell_h : ℚ) * |(rotMatrixBase env cell_h cell_w angle).m01| +
          (cell_w : ℚ) * |(rotMatrixBase env cell_h cell_w angle).m00|)).toNat

/-- The expanded canvas height `int(h·|m00| + w·|m01|)` of `_rotate_cell`. -/
def rotNewH (env : Env) (cell_h cell_w : ℕ) (angle : ℕ) : ℕ :=
  (pyInt ((cell_h : ℚ) * |(rotMatrixBase env cell_h cell_w angle).m00| +
          (cell_w : ℚ) * |(rotMatrixBase env cell_h cell_w angle).m01|)).toNat

/-- The recentered matrix actually passed to `warpAffine` by `_rotate_cell`. -/
def rotMatrixAdj (env : Env) (cell_h cell_w : ℕ) (angle : ℕ) : Mat2x3 :=
  { rotMatrixBase env cell_h cell_w angle with
    m02 := (rotMatrixBase env cell_h cell_w angle).m02 +
      ((rotNewW env cell_h cell_w angle : ℚ) / 2 - (rotCenter cell_h cell_w).1),
    m12 := (rotMatrixBase env cell_h cell_w angle).m12 +
      ((rotNewH env cell_h cell_w angle : ℚ) / 2 - (rotCenter cell_h cell_w).2) }

theorem randint_0_360 (st : GState) :
    randint 0 360 st = .ok (randintVal 0 360 st) := by
  simp [randint]

/-- Closed form of `_rotate_cell`: it always succeeds, consumes one draw, and
returns the warp of the cell by the recentered matrix on the expanded canvas. -/
theorem rotate_cell_eq (env : Env) (cell : Img) (cell_h cell_w : ℕ) (st : GState) :
    _rotate_cell env cell cell_h cell_w st =
      .ok ((env.warpAffine cell (rotMatrixAdj env cell_h cell_w (rotAngle st))
              (rotNewW env cell_h cell_w (rotAngle st))
              (rotNewH env cell_h cell_w (rotAngle st)),
            rotNewH env cell_h cell_w (rotAngle st),
            rotNewW env cell_h cell_w (rotAngle st)), advancePy st 1) := by
  unfold _rotate_cell
  rw [randint_0_360]
  rfl

/-- Closed form of `_overlay`: it always succeeds, consumes two draws, and
blends the clipped slice of the rotated resized cell. -/
theorem overlay_ok (env : Env) (cfg : Config) (bg cell : Img) (coord : Coord)
    (t : ℚ) (st : GState) :
    ∃ (c2 : Img) (rotH rotW : ℕ),
      _overlay env cfg bg cell coord t st =
        .ok (blendCell bg c2 coord.h coord.w (clipDim coord.h rotH bg.height)
              (clipDim coord.w rotW bg.width) t, advancePy st 2) ∧
      c2.channels = cell.channels := by
  unfold _overlay
  dsimp only [pyuniform]
  rw [rotate_cell_eq]
  refine ⟨_, _, _, rfl, ?_⟩
  rw [show ∀ img nh nw, (pySlice img nh nw).channels = img.channels from fun _ _ _ => rfl]
  rw [env.warpAffine_channels, env.resize_channels]

/-! Claim C6. -/

/-- C6: overlaying a sprite without an alpha channel (a 3-channel decode) is a
silent no-op — `_overlay` succeeds (consuming its two draws) and returns the
background object completely unmodified. -/
theorem C6_no_alpha_silent_noop (env : Env) (cfg : Config) (bg cell : Img)
    (coord : Coord) (t : ℚ) (st : GState) (h3 : cell.channels = 3) :
    _overlay env cfg bg cell coord t st = .ok (bg, advancePy st 2) := by
  obtain ⟨c2, rotH, rotW, heq, hch⟩ := overlay_ok env cfg bg cell coord t st
  rw [heq, blendCell_of_channels_ne]
  rw [hch, h3]
  decide

/-- Witness for C6: a concrete 3-channel sprite leaves a concrete background
untouched. -/
theorem C6_witness :
    _overlay envT ⟨(2, 2), 1, 0, 0⟩ constImg constImg ⟨0, 0⟩ 1 stT =
      .ok (constImg, advancePy stT 2) :=
  C6_no_alpha_silent_noop envT ⟨(2, 2), 1, 0, 0⟩ constImg constImg ⟨0, 0⟩ 1 stT rfl

/-! Claim C2. -/

/-- C2: when the (clipped) sprite carries an alpha channel, the blend writes,
at each pixel of the clipped overlay region and for each of the three colour
channels independently, the uint8 store of
`(1 - factor)·background + factor·sprite` with
`factor = (alpha/255)·transparency`, and writes nothing outside that region
(and nothing outside the three colour channels); the background's dimensions
are unchanged. -/
theorem C2_alpha_blend_formula (bg cell : Img) (h0 w0 : ℕ) (cellH cellW : ℤ)
    (t : ℚ) (h4 : cell.channels = 4)
    (hH : (h0 : ℤ) + cellH ≤ (bg.height : ℤ)) (hW : (w0 : ℤ) + cellW ≤ (bg.width : ℤ)) :
    ((blendCell bg cell h0 w0 cellH cellW t).height = bg.height ∧
     (blendCell bg cell h0 w0 cellH cellW t).width = bg.width ∧
     (blendCell bg cell h0 w0 cellH cellW t).channels = bg.channels) ∧
    (∀ i j c, c < 3 → h0 ≤ i → (i : ℤ) < (h0 : ℤ) + cellH →
        w0 ≤ j → (j : ℤ) < (w0 : ℤ) + cellW →
      (blendCell bg cell h0 w0 cellH cellW t).px i j c =
        pyU8 ((1 - ((cell.px (i - h0) (j - w0) 3 : ℚ) / 255) * t) * (bg.px i j c : ℚ) +
              ((cell.px (i - h0) (j - w0) 3 : ℚ) / 255) * t *
                (cell.px (i - h0) (j - w0) c : ℚ))) ∧
    (∀ i j c, ¬(h0 ≤ i ∧ (i : ℤ) < (h0 : ℤ) + cellH ∧
                w0 ≤ j ∧ (j : ℤ) < (w0 : ℤ) + cellW ∧ c < 3) →
      (blendCell bg cell h0 w0 cellH cellW t).px i j c = bg.px i j c) := by
  have hmin1 : min ((h0 : ℤ) + cellH) (bg.height : ℤ) = (h0 : ℤ) + cellH :=
    min_eq_left hH
  have hmin2 : min ((w0 : ℤ) + cellW) (bg.width : ℤ) = (w0 : ℤ) + cellW :=
    min_eq_left hW
  refine ⟨⟨blendCell_height bg cell h0 w0 cellH cellW t,
    blendCell_width bg cell h0 w0 cellH cellW t,
    blendCell_channels bg cell h0 w0 cellH cellW t⟩, ?_, ?_⟩
  · intro i j c hc hi1 hi2 hj1 hj2
    unfold blendCell
    rw [if_pos h4]
    dsimp only
    rw [hmin1, hmin2, if_pos ⟨hi1, hi2, hj1, hj2, hc⟩]
  · intro i j c hnot
    unfold blendCell
    rw [if_pos h4]
    dsimp only
    rw [hmin1, hmin2, if_neg hnot]

/-- A concrete 2×2 grey background for the C2 witness. -/
def bgW : Img := ⟨2, 2, 3, fun _ _ _ => 100⟩

/-- Witness for C2 on a concrete background and a concrete opaque sprite. -/
theorem C2_witness :
    ((blendCell bgW constImg4 0 0 1 1 1).height = bgW.height ∧
     (blendCell bgW constImg4 0 0 1 1 1).width = bgW.width ∧
     (blendCell bgW constImg4 0 0 1 1 1).channels = bgW.channels) ∧
    (∀ i j c : ℕ, c < 3 → 0 ≤ i → (i : ℤ) < (0 : ℤ) + 1 → 0 ≤ j → (j : ℤ) < (0 : ℤ) + 1 →
      (blendCell bgW constImg4 0 0 1 1 1).px i j c =
        pyU8 ((1 - ((constImg4.px (i - 0) (j - 0) 3 : ℚ) / 255) * 1) * (bgW.px i j c : ℚ) +
              ((constImg4.px (i - 0) (j - 0) 3 : ℚ) / 255) * 1 *
                (constImg4.px (i - 0) (j - 0) c : ℚ))) ∧
    (∀ i j c : ℕ, ¬((0 : ℕ) ≤ i ∧ (i : ℤ) < (0 : ℤ) + 1 ∧ (0 : ℕ) ≤ j ∧ (j : ℤ) < (0 : ℤ) + 1 ∧ c < 3) →
      (blendCell bgW constImg4 0 0 1 1 1).px i j c = bgW.px i j c) :=
  C2_alpha_blend_formula bgW constImg4 0 0 1 1 1 rfl (by decide) (by decide)

/-! Claim C4. -/

/-- C4: `_overlay` never raises — it always returns an image of the
background's exact dimensions — and it never writes any pixel outside the
background array; moreover the clipping step cuts the sprite at its southeast
corner to fit exactly: whenever the (never negative) offset lies within the
bound and offset plus post-rotation size exceeds the bound, the clipped size
satisfies `offset + clipped = bound`, and `offset + clipped ≤ bound` holds in
every case. -/
theorem C4_overlay_clips_inside_bounds (env : Env) (cfg : Config) (bg cell : Img)
    (coord : Coord) (t : ℚ) (st : GState) :
    (∃ out st2, _overlay env cfg bg cell coord t st = .ok (out, st2) ∧
      out.height = bg.height ∧ out.width = bg.width ∧ out.channels = bg.channels ∧
      (∀ i j c, bg.height ≤ i ∨ bg.width ≤ j → out.px i j c = bg.px i j c)) ∧
    (∀ off sz bound : ℕ, off ≤ bound →
      (off : ℤ) + clipDim off sz bound ≤ (bound : ℤ) ∧
      ((bound : ℤ) < (off : ℤ) + (sz : ℤ) →
        (off : ℤ) + clipDim off sz bound = (bound : ℤ))) := by
  constructor
  · obtain ⟨c2, rotH, rotW, heq, hch⟩ := overlay_ok env cfg bg cell coord t st
    refine ⟨_, _, heq, blendCell_height _ _ _ _ _ _ _, blendCell_width _ _ _ _ _ _ _,
      blendCell_channels _ _ _ _ _ _ _, ?_⟩
    intro i j c hout
    apply blendCell_frame
    rintro ⟨hi1, hi2, hj1, hj2, hc⟩
    have h2 := lt_of_lt_of_le hi2 (min_le_right _ _)
    have h4 := lt_of_lt_of_le hj2 (min_le_right _ _)
    rcases hout with h | h
    · omega
    · omega
  · intro off sz bound hob
    unfold clipDim
    split <;> constructor <;> omega

/-- Witness for C4: an oversized sprite (post-rotation size 5) at offset 0 on
a background of height 2 is clipped to fit exactly. -/
theorem C4_witness :
    (0 : ℤ) + clipDim 0 5 2 ≤ (2 : ℤ) ∧
    ((2 : ℤ) < (0 : ℤ) + (5 : ℤ) → (0 : ℤ) + clipDim 0 5 2 = (2 : ℤ)) :=
  (C4_overlay_clips_inside_bounds envT ⟨(2, 2), 1, 0, 0⟩ constImg constImg4
    ⟨1, 1⟩ 1 stT).2 0 5 2 (by decide)

/-! Claim C5. -/

/-- C5: `_rotate_cell` samples its angle as `randint(0, 360)` — an integer of
`[0, 360]`, every value of which some uniform draw attains — builds the
rotation matrix about the sprite's own center `(w // 2, h // 2)` (the matrix
fixes that center), expands the output canvas to the bounding-box dimensions
`int(h·|m01| + w·|m00|)` and `int(h·|m00| + w·|m01|)` computed from the
absolute values of the matrix's cosine (`m00`) and sine (`m01`) entries, and
recenters the translation so the rotated sprite's center lands at the center
of the new canvas (hence the rotation step itself clips nothing); it never
raises and consumes exactly one draw. -/
theorem C5_rotation_bounding_box (env : Env) (cell : Img) (cell_h cell_w : ℕ)
    (st : GState) (hv : ValidStream st.py) :
    rotAngle st ≤ 360 ∧
    (∀ a2 : ℕ, a2 ≤ 360 → ∃ u : ℚ, 0 ≤ u ∧ u < 1 ∧
        rotAngle ⟨fun _ => u, st.np, st.bgCalls, st.cellCalls⟩ = a2) ∧
    applyMat (rotMatrixBase env cell_h cell_w (rotAngle st)) (rotCenter cell_h cell_w) =
      rotCenter cell_h cell_w ∧
    applyMat (rotMatrixAdj env cell_h cell_w (rotAngle st)) (rotCenter cell_h cell_w) =
      ((rotNewW env cell_h cell_w (rotAngle st) : ℚ) / 2,
       (rotNewH env cell_h cell_w (rotAngle st) : ℚ) / 2) ∧
    _rotate_cell env cell cell_h cell_w st =
      .ok ((env.warpAffine cell (rotMatrixAdj env cell_h cell_w (rotAngle st))
              (rotNewW env cell_h cell_w (rotAngle st))
              (rotNewH env cell_h cell_w (rotAngle st)),
            rotNewH env cell_h cell_w (rotAngle st),
            rotNewW env cell_h cell_w (rotAngle st)), advancePy st 1) := by
  refine ⟨randintVal_le 0 360 st (by norm_num) hv, ?_, ?_, ?_,
    rotate_cell_eq env cell cell_h cell_w st⟩
  · intro a2 ha2
    obtain ⟨u, h0, h1, hu⟩ := drawNat_surj 360 a2 ha2
    refine ⟨u, h0, h1, ?_⟩
    simp only [rotAngle, randintVal]
    rw [show ((360 : ℕ) : ℚ) - ((0 : ℕ) : ℚ) + 1 = ((360 : ℕ) : ℚ) + 1 by push_cast; ring]
    omega
  · simp only [rotMatrixBase, getRotationMatrix2D, applyMat, rotCenter, Prod.mk.injEq]
    constructor <;> ring
  · simp only [rotMatrixAdj, rotMatrixBase, getRotationMatrix2D, applyMat, rotCenter,
      Prod.mk.injEq]
    constructor <;> ring

/-- Witness for C5 on a concrete sprite, size and environment. -/
theorem C5_witness :
    rotAngle stT ≤ 360 ∧
    (∀ a2 : ℕ, a2 ≤ 360 → ∃ u : ℚ, 0 ≤ u ∧ u < 1 ∧
        rotAngle ⟨fun _ => u, stT.np, stT.bgCalls, stT.cellCalls⟩ = a2) ∧
    applyMat (rotMatrixBase envT 2 2 (rotAngle stT)) (rotCenter 2 2) = rotCenter 2 2 ∧
    applyMat (rotMatrixAdj envT 2 2 (rotAngle stT)) (rotCenter 2 2) =
      ((rotNewW envT 2 2 (rotAngle stT) : ℚ) / 2,
       (rotNewH envT 2 2 (rotAngle stT) : ℚ) / 2) ∧
    _rotate_cell envT constImg4 2 2 stT =
      .ok ((envT.warpAffine constImg4 (rotMatrixAdj envT 2 2 (rotAngle stT))
              (rotNewW envT 2 2 (rotAngle stT)) (rotNewH envT 2 2 (rotAngle stT)),
            rotNewH envT 2 2 (rotAngle stT),
            rotNewW envT 2 2 (rotAngle stT)), advancePy stT 1) :=
  C5_rotation_bounding_box envT constImg4 2 2 stT stT_GOK.1

/-! Preservation lemmas feeding the end-to-end claims. -/

theorem load_bg_ok (env : Env) (cfg : Config) (p : String) (st : GState)
    (h : (env.imread_color p).isSome) :
    ∃ bg, _load_image env cfg p true false st = .ok (bg, st) ∧
      bg.height = cfg.img_size.1 ∧ bg.width = cfg.img_size.2 ∧
      bg.channels = 3 ∧ Bounded bg := by
  obtain ⟨img, himg⟩ := Option.isSome_iff_exists.mp h
  refine ⟨env.resize img cfg.img_size.2 cfg.img_size.1, ?_,
    env.resize_height img cfg.img_size.2 cfg.img_size.1,
    env.resize_width img cfg.img_size.2 cfg.img_size.1, ?_, ?_⟩
  · simp [_load_image, himg]
  · rw [env.resize_channels]
    exact env.imread_color_channels p img himg
  · exact env.resize_bounded _ _ _ (env.imread_color_bounded p img himg)

theorem load_cell_ok (env : Env) (cfg : Config) (p : String) (st : GState)
    (h : (env.imread_unchanged p).isSome) :
    ∃ cell, _load_image env cfg p true true st = .ok (cell, st) := by
  obtain ⟨img, himg⟩ := Option.isSome_iff_exists.mp h
  refine ⟨env.resize img cfg.img_size.2 cfg.img_size.1, ?_⟩
  simp [_load_image, himg]

theorem overlay_preserve (env : Env) (cfg : Config) (bg cell : Img) (coord : Coord)
    (t : ℚ) (st : GState) :
    ∃ out, _overlay env cfg bg cell coord t st = .ok (out, advancePy st 2) ∧
      out.height = bg.height ∧ out.width = bg.width ∧ out.channels = bg.channels ∧
      (Bounded bg → Bounded out) := by
  obtain ⟨c2, rotH, rotW, heq, _⟩ := overlay_ok env cfg bg cell coord t st
  exact ⟨_, heq, blendCell_height _ _ _ _ _ _ _, blendCell_width _ _ _ _ _ _ _,
    blendCell_channels _ _ _ _ _ _ _, fun hb => blendCell_bounded _ _ _ _ _ _ _ hb⟩

theorem foldl_preserve {α β : Type} (P : β → Prop) (f : β → α → β)
    (h : ∀ b a, P b → P (f b a)) :
    ∀ (l : List α) (b : β), P b → P (l.foldl f b) := by
  intro l
  induction l with
  | nil => intro b hb; exact hb
  | cons x xs ih => intro b hb; exact ih _ (h b x hb)

theorem npDraw_le (u : ℚ) (h0 : 0 ≤ u) (h1 : u < 1) : (⌊u * 256⌋).toNat ≤ 255 := by
  have hlt : ⌊u * 256⌋ < (256 : ℤ) := by
    apply Int.floor_lt.mpr
    push_cast
    nlinarith
  omega

theorem noisePixel_preserve (percent : ℚ) (i j h0 w0 c0 : ℕ) (acc : Img × GState)
    (hp : acc.1.height = h0 ∧ acc.1.width = w0 ∧ acc.1.channels = c0 ∧
          Bounded acc.1 ∧ GOK acc.2) :
    (noisePixel percent i j acc).1.height = h0 ∧
    (noisePixel percent i j acc).1.width = w0 ∧
    (noisePixel percent i j acc).1.channels = c0 ∧
    Bounded (noisePixel percent i j acc).1 ∧ GOK (noisePixel percent i j acc).2 := by
  obtain ⟨h1, h2, h3, h4, h5⟩ := hp
  unfold noisePixel pyrandom
  dsimp only
  split
  · refine ⟨h1, h2, h3, ?_, GOK_advanceNp _ 3 (GOK_advancePy _ 1 h5)⟩
    intro i2 j2 c
    unfold setPixel3
    dsimp only
    split
    · exact npDraw_le _ (h5.2 c).1 (h5.2 c).2
    · exact h4 i2 j2 c
  · exact ⟨h1, h2, h3, h4, GOK_advancePy _ 1 h5⟩

theorem noise_image_preserve (image : Img) (percent : ℚ) (st : GState)
    (hb : Bounded image) (hst : GOK st) :
    (noise_image image percent st).1.height = image.height ∧
    (noise_image image percent st).1.width = image.width ∧
    (noise_image image percent st).1.channels = image.channels ∧
    Bounded (noise_image image percent st).1 ∧ GOK (noise_image image percent st).2 := by
  unfold noise_image
  have hstep : ∀ (b : Img × GState) (a : ℕ),
      (b.1.height = image.height ∧ b.1.width = image.width ∧
        b.1.channels = image.channels ∧ Bounded b.1 ∧ GOK b.2) →
      ((List.range image.width).foldl (fun acc2 j => noisePixel percent a j acc2) b).1.height = image.height ∧
      ((List.range image.width).foldl (fun acc2 j => noisePixel percent a j acc2) b).1.width = image.width ∧
      ((List.range image.width).foldl (fun acc2 j => noisePixel percent a j acc2) b).1.channels = image.channels ∧
      Bounded ((List.range image.width).foldl (fun acc2 j => noisePixel percent a j acc2) b).1 ∧
      GOK ((List.range image.width).foldl (fun acc2 j => noisePixel percent a j acc2) b).2 := by
    intro b a hbp
    exact foldl_preserve
      (fun acc => acc.1.height = image.height ∧ acc.1.width = image.width ∧
        acc.1.channels = image.channels ∧ Bounded acc.1 ∧ GOK acc.2)
      (fun acc2 j => noisePixel percent a j acc2)
      (fun b2 a2 hb2 =>
        noisePixel_preserve percent a a2 image.height image.width image.channels b2 hb2)
      (List.range image.width) b hbp
  exact foldl_preserve
    (fun acc => acc.1.height = image.height ∧ acc.1.width = image.width ∧
      acc.1.channels = image.channels ∧ Bounded acc.1 ∧ GOK acc.2)
    (fun acc i => (List.range image.width).foldl (fun acc2 j => noisePixel percent i j acc2) acc)
    hstep (List.range image.height) (image, st) ⟨rfl, rfl, rfl, hb, hst⟩

theorem apply_random_noise_preserve (image : Img) (st : GState)
    (hb : Bounded image) (hst : GOK st) :
    (_apply_random_noise image st).1.height = image.height ∧
    (_apply_random_noise image st).1.width = image.width ∧
    (_apply_random_noise image st).1.channels = image.channels ∧
    Bounded (_apply_random_noise image st).1 ∧ GOK (_apply_random_noise image st).2 := by
  unfold _apply_random_noise
  dsimp only [pyuniform]
  exact noise_image_preserve image _ (advancePy st 1) hb (GOK_advancePy st 1 hst)

theorem cellLoop_ok (env : Env) (cfg : Config) (dl : DatasetLoader)
    (henv : EnvOk env) :
    ∀ (coords : List Coord) (bg : Img) (st : GState), GOK st →
    ∃ out st2, cellLoop env cfg dl coords bg st = .ok (out, st2) ∧
      out.height = bg.height ∧ out.width = bg.width ∧ out.channels = bg.channels ∧
      (Bounded bg → Bounded out) ∧ GOK st2 := by
  intro coords
  induction coords with
  | nil =>
      intro bg st hst
      exact ⟨bg, st, rfl, rfl, rfl, rfl, id, hst⟩
  | cons coord rest ih =>
      intro bg st hst
      obtain ⟨cell, hcell⟩ := load_cell_ok env cfg (dl.cellPath st.cellCalls)
        { st with cellCalls := st.cellCalls + 1 } (henv.2 _)
      obtain ⟨mid, hov, hmh, hmw, hmc, hmb⟩ :=
        overlay_preserve env cfg bg cell coord
          (0.6 + (1.0 - 0.6) * st.py 0)
          (advancePy { st with cellCalls := st.cellCalls + 1 } 1)
      obtain ⟨out, st2, hrest, hoh, how, hoc, hob, hst2⟩ :=
        ih mid (advancePy (advancePy { st with cellCalls := st.cellCalls + 1 } 1) 2)
          (GOK_advancePy _ 2 (GOK_advancePy _ 1 hst))
      refine ⟨out, st2, ?_, hoh.trans hmh, how.trans hmw, hoc.trans hmc,
        fun hb => hob (hmb hb), hst2⟩
      show cellLoop env cfg dl (coord :: rest) bg st = .ok (out, st2)
      simp only [cellLoop, get_random_cell]
      rw [hcell]
      dsimp only [pyuniform]
      rw [hov]
      exact hrest

theorem generate_image_ok (env : Env) (cfg : Config) (dl : DatasetLoader)
    (st : GState) (hmm : cfg.min_cells ≤ cfg.max_cells) (henv : EnvOk env)
    (hst : GOK st) :
    ∃ img st2, _generate_image env cfg dl st = .ok (img, st2) ∧
      img.height = cfg.img_size.1 ∧ img.width = cfg.img_size.2 ∧
      img.channels = 3 ∧ Bounded img ∧ GOK st2 := by
  have hr : randint cfg.min_cells cfg.max_cells st =
      .ok (randintVal cfg.min_cells cfg.max_cells st) := by
    simp [randint, Nat.not_lt.mpr hmm]
  obtain ⟨nv, st1, hpair⟩ :
      ∃ nv st1, randintVal cfg.min_cells cfg.max_cells st = (nv, st1) := ⟨_, _, rfl⟩
  have hst1 : advancePy st 1 = st1 := congrArg Prod.snd hpair
  subst hst1
  obtain ⟨coords, hcd⟩ :
      ∃ c, (_generate_cell_coords cfg nv (advancePy st 1)).1 = c := ⟨_, rfl⟩
  have hco : _generate_cell_coords cfg nv (advancePy st 1) =
      (coords, advancePy (advancePy st 1) (2 * nv)) := by
    rw [← coords_state cfg nv (advancePy st 1), ← hcd]
  obtain ⟨bg, hbg, hbh, hbw, hbc, hbb⟩ := load_bg_ok env cfg
    (dl.bgPath (advancePy (advancePy st 1) (2 * nv)).bgCalls)
    { advancePy (advancePy st 1) (2 * nv) with
      bgCalls := (advancePy (advancePy st 1) (2 * nv)).bgCalls + 1 } (henv.1 _)
  obtain ⟨out, st5, hloop, hoh, how, hoc, hob, hst5⟩ :=
    cellLoop_ok env cfg dl henv coords bg
      { advancePy (advancePy st 1) (2 * nv) with
        bgCalls := (advancePy (advancePy st 1) (2 * nv)).bgCalls + 1 }
      (GOK_advancePy _ (2 * nv) (GOK_advancePy _ 1 hst))
  obtain ⟨hnh, hnw, hnc, hnb, hnst⟩ :=
    apply_random_noise_preserve out st5 (hob hbb) hst5
  refine ⟨(_apply_random_noise out st5).1, (_apply_random_noise out st5).2, ?_,
    by rw [hnh, hoh, hbh], by rw [hnw, how, hbw], by rw [hnc, hoc, hbc], hnb, hnst⟩
  show _generate_image env cfg dl st = _
  simp only [_generate_image, hr, hpair, hco, get_random_background]
  rw [hbg]
  dsimp only
  rw [hloop]

theorem genLoop_ok (env : Env) (cfg : Config) (dl : DatasetLoader)
    (hmm : cfg.min_cells ≤ cfg.max_cells) (henv : EnvOk env) :
    ∀ (n : ℕ) (st : GState), GOK st →
    (genLoop env cfg dl n st).2 = none ∧
    ((genLoop env cfg dl n st).1).length = n ∧
    ∀ img ∈ (genLoop env cfg dl n st).1,
      img.height = cfg.img_size.1 ∧ img.width = cfg.img_size.2 ∧
      img.channels = 3 ∧ Bounded img := by
  intro n
  induction n with
  | zero =>
      intro st hst
      exact ⟨rfl, rfl, by simp [genLoop]⟩
  | succ k ih =>
      intro st hst
      obtain ⟨img, st2, hgen, hh, hw2, hc, hb, hst2⟩ :=
        generate_image_ok env cfg dl st hmm henv hst
      obtain ⟨he, hl, hmem⟩ := ih st2 hst2
      have hstep : genLoop env cfg dl (k + 1) st =
          (img :: (genLoop env cfg dl k st2).1, (genLoop env cfg dl k st2).2) := by
        simp [genLoop, hgen]
      rw [hstep]
      refine ⟨he, by simp [hl], ?_⟩
      intro img2 hmem2
      rcases List.mem_cons.mp hmem2 with h | h
      · subst h
        exact ⟨hh, hw2, hc, hb⟩
      · exact hmem img2 h

/-! Claim C7. -/

/-- An undecodable cell (sprite) path makes the per-cell loop raise the naming
`ValueError` at exactly that sprite: the loop does not recurse into the
remaining placements — the sprite is not skipped and nothing is retried. -/
theorem cellLoop_cell_decode_fails (env : Env) (cfg : Config) (dl : DatasetLoader)
    (coord : Coord) (rest : List Coord) (bg : Img) (st : GState)
    (hnone : env.imread_unchanged (dl.cellPath st.cellCalls) = none) :
    cellLoop env cfg dl (coord :: rest) bg st =
      .error (.valueError ("Error: Failed to load image " ++ dl.cellPath st.cellCalls),
              { st with cellCalls := st.cellCalls + 1 }) := by
  simp only [cellLoop, get_random_cell, _load_image, hnone]
  simp

/-- C7: a path that fails to decode makes `_load_image` raise a `ValueError`
naming that path; a failing background decode and a failing cell (sprite)
decode each make `_generate_image` fail with that very error (the per-cell
loop aborts at the failing sprite without touching the remaining placements);
and the generation loop stops at the first failing image — it neither skips
it, nor retries it, nor recovers — while each successful image is emitted
exactly once before the loop continues. -/
theorem C7_decode_failure_aborts :
    (∀ (env : Env) (cfg : Config) (p : String) (rsz wa : Bool) (st : GState),
        (if wa then env.imread_unchanged p else env.imread_color p) = none →
        _load_image env cfg p rsz wa st =
          .error (.valueError ("Error: Failed to load image " ++ p), st)) ∧
    (∀ (env : Env) (cfg : Config) (dl : DatasetLoader) (st : GState),
        cfg.min_cells ≤ cfg.max_cells →
        env.imread_color (dl.bgPath st.bgCalls) = none →
        ∃ st2, _generate_image env cfg dl st =
          .error (.valueError ("Error: Failed to load image " ++ dl.bgPath st.bgCalls), st2)) ∧
    (∀ (env : Env) (cfg : Config) (dl : DatasetLoader) (coord : Coord)
        (rest : List Coord) (bg : Img) (st : GState),
        env.imread_unchanged (dl.cellPath st.cellCalls) = none →
        cellLoop env cfg dl (coord :: rest) bg st =
          .error (.valueError ("Error: Failed to load image " ++ dl.cellPath st.cellCalls),
                  { st with cellCalls := st.cellCalls + 1 })) ∧
    (∀ (env : Env) (cfg : Config) (dl : DatasetLoader) (st : GState),
        cfg.min_cells ≤ cfg.max_cells → 1 ≤ cfg.min_cells →
        (env.imread_color (dl.bgPath st.bgCalls)).isSome →
        env.imread_unchanged (dl.cellPath st.cellCalls) = none →
        ∃ st2, _generate_image env cfg dl st =
          .error (.valueError ("Error: Failed to load image " ++ dl.cellPath st.cellCalls), st2)) ∧
    (∀ (env : Env) (cfg : Config) (dl : DatasetLoader) (n : ℕ) (st : GState) e,
        _generate_image env cfg dl st = .error e →
        genLoop env cfg dl (n + 1) st = ([], some e)) ∧
    (∀ (env : Env) (cfg : Config) (dl : DatasetLoader) (n : ℕ) (st : GState) img st1,
        _generate_image env cfg dl st = .ok (img, st1) →
        genLoop env cfg dl (n + 1) st =
          (img :: (genLoop env cfg dl n st1).1, (genLoop env cfg dl n st1).2)) := by
  refine ⟨?_, ?_, ?_, ?_, ?_, ?_⟩
  · intro env cfg p rsz wa st h
    simp [_load_image, h]
  · intro env cfg dl st hmm hnone
    have hr : randint cfg.min_cells cfg.max_cells st =
        .ok (randintVal cfg.min_cells cfg.max_cells st) := by
      simp [randint, Nat.not_lt.mpr hmm]
    obtain ⟨nv, st1, hpair⟩ :
        ∃ nv st1, randintVal cfg.min_cells cfg.max_cells st = (nv, st1) := ⟨_, _, rfl⟩
    have hst1 : advancePy st 1 = st1 := congrArg Prod.snd hpair
    subst hst1
    obtain ⟨coords, hcd⟩ :
        ∃ c, (_generate_cell_coords cfg nv (advancePy st 1)).1 = c := ⟨_, rfl⟩
    have hco : _generate_cell_coords cfg nv (advancePy st 1) =
        (coords, advancePy (advancePy st 1) (2 * nv)) := by
      rw [← coords_state cfg nv (advancePy st 1), ← hcd]
    refine ⟨{ advancePy (advancePy st 1) (2 * nv) with bgCalls := st.bgCalls + 1 }, ?_⟩
    simp only [_generate_image, hr, hpair, hco, get_random_background,
      advancePy_bgCalls, _load_image, hnone]
    simp
  · intro env cfg dl coord rest bg st hnone
    exact cellLoop_cell_decode_fails env cfg dl coord rest bg st hnone
  · intro env cfg dl st hmm hmin hbgsome hnone
    have hr : randint cfg.min_cells cfg.max_cells st =
        .ok (randintVal cfg.min_cells cfg.max_cells st) := by
      simp [randint, Nat.not_lt.mpr hmm]
    obtain ⟨nv, st1, hpair⟩ :
        ∃ nv st1, randintVal cfg.min_cells cfg.max_cells st = (nv, st1) := ⟨_, _, rfl⟩
    have hst1 : advancePy st 1 = st1 := congrArg Prod.snd hpair
    subst hst1
    have hnv : 1 ≤ nv := by
      have h1 := congrArg Prod.fst hpair
      simp only [randintVal] at h1
      omega
    obtain ⟨coords, hcd⟩ :
        ∃ c, (_generate_cell_coords cfg nv (advancePy st 1)).1 = c := ⟨_, rfl⟩
    have hco : _generate_cell_coords cfg nv (advancePy st 1) =
        (coords, advancePy (advancePy st 1) (2 * nv)) := by
      rw [← coords_state cfg nv (advancePy st 1), ← hcd]
    have hlen : coords.length = nv := by
      rw [← hcd]
      exact coords_length cfg nv (advancePy st 1)
    obtain ⟨c0, rest, hsplit⟩ : ∃ c0 rest, coords = c0 :: rest := by
      cases coords with
      | nil =>
          simp at hlen
          omega
      | cons a l => exact ⟨a, l, rfl⟩
    obtain ⟨bgim, hbg, _, _, _, _⟩ := load_bg_ok env cfg
      (dl.bgPath (advancePy (advancePy st 1) (2 * nv)).bgCalls)
      { advancePy (advancePy st 1) (2 * nv) with
        bgCalls := (advancePy (advancePy st 1) (2 * nv)).bgCalls + 1 } hbgsome
    have hcl := cellLoop_cell_decode_fails env cfg dl c0 rest bgim
      { advancePy (advancePy st 1) (2 * nv) with
        bgCalls := (advancePy (advancePy st 1) (2 * nv)).bgCalls + 1 } hnone
    refine ⟨{ advancePy (advancePy st 1) (2 * nv) with
      bgCalls := (advancePy (advancePy st 1) (2 * nv)).bgCalls + 1,
      cellCalls := (advancePy (advancePy st 1) (2 * nv)).cellCalls + 1 }, ?_⟩
    simp only [_generate_image, hr, hpair, hco, get_random_background]
    rw [hbg]
    dsimp only
    rw [hsplit, hcl]
    rfl
  · intro env cfg dl n st e h
    simp [genLoop, h]
  · intro env cfg dl n st img st1 h
    simp [genLoop, h]

/-- An environment whose codec never decodes, for the C7 witness. -/
def envN : Env where
  imread_color := fun _ => none
  imread_unchanged := fun _ => none
  resize := fun img w h => ⟨h, w, img.channels, img.px⟩
  warpAffine := fun img _ w h => ⟨h, w, img.channels, fun _ _ _ => 0⟩
  trig := fun _ => (1, 0)
  imread_color_channels := fun _ _ h => Option.noConfusion h
  imread_color_bounded := fun _ _ h => Option.noConfusion h
  imread_unchanged_bounded := fun _ _ h => Option.noConfusion h
  resize_height := fun _ _ _ => rfl
  resize_width := fun _ _ _ => rfl
  resize_channels := fun _ _ _ => rfl
  resize_bounded := fun _ _ _ hb => hb
  warpAffine_height := fun _ _ _ _ => rfl
  warpAffine_width := fun _ _ _ _ => rfl
  warpAffine_channels := fun _ _ _ _ => rfl
  warpAffine_bounded := by
    intro img m w h _
    intro i j c
    norm_num

/-- Witness for C7: a concrete undecodable path raises the naming error. -/
theorem C7_witness :
    _load_image envN ⟨(4, 4), 1, 0, 0⟩ "missing.png" true false stT =
      .error (.valueError ("Error: Failed to load image " ++ "missing.png"), stT) :=
  C7_decode_failure_aborts.1 envN ⟨(4, 4), 1, 0, 0⟩ "missing.png" true false stT rfl

/-! Claim C1. -/

/-- C1: for every configuration with `min_cells ≤ max_cells` (and a codec that
decodes every provided path, plus valid random streams), one invocation of the
generation run raises nothing and produces exactly `num_imgs` raster images,
each of shape `(H, W, 3)` where `(H, W)` is the configured target size. -/
theorem C1_exactly_num_imgs_of_shape (env : Env) (cfg : Config)
    (dl : DatasetLoader) (st : GState) (hmm : cfg.min_cells ≤ cfg.max_cells)
    (henv : EnvOk env) (hst : GOK st) :
    (generate_and_save env cfg dl st).2 = none ∧
    ((generate_and_save env cfg dl st).1).length = cfg.num_imgs ∧
    ∀ img ∈ (generate_and_save env cfg dl st).1,
      img.height = cfg.img_size.1 ∧ img.width = cfg.img_size.2 ∧
      img.channels = 3 := by
  obtain ⟨h1, h2, h3⟩ := genLoop_ok env cfg dl hmm henv cfg.num_imgs st hst
  exact ⟨h1, h2, fun img h =>
    ⟨(h3 img h).1, (h3 img h).2.1, (h3 img h).2.2.1⟩⟩

/-- Witness for C1 at the default-like configuration shrunk to 1×1 and two
images. -/
theorem C1_witness :
    (generate_and_save envT ⟨(1, 1), 2, 0, 0⟩ dlT stT).2 = none ∧
    ((generate_and_save envT ⟨(1, 1), 2, 0, 0⟩ dlT stT).1).length = 2 ∧
    ∀ img ∈ (generate_and_save envT ⟨(1, 1), 2, 0, 0⟩ dlT stT).1,
      img.height = 1 ∧ img.width = 1 ∧ img.channels = 3 :=
  C1_exactly_num_imgs_of_shape envT ⟨(1, 1), 2, 0, 0⟩ dlT stT (by decide)
    envT_ok stT_GOK

/-! Claim C9. -/

/-- C9: every pipeline operation preserves the raster invariant — the sprite
overlay/blend and the noise injection keep every channel value an integer of
`[0, 255]` (naturals at most 255; the background decode and resize produce
such values by the codec contract) and keep the grid dimensions unchanged —
and consequently every generated image of a run has all channel values in
`[0, 255]` and the configured `(height, width)` dimensions. -/
theorem C9_range_and_shape_invariants :
    (∀ (env : Env) (cfg : Config) (bg cell : Img) (coord : Coord) (t : ℚ)
        (st : GState) (out : Img) (st2 : GState),
        _overlay env cfg bg cell coord t st = .ok (out, st2) → Bounded bg →
        Bounded out ∧ out.height = bg.height ∧ out.width = bg.width) ∧
    (∀ (image : Img) (percent : ℚ) (st : GState), Bounded image → GOK st →
        Bounded (noise_image image percent st).1 ∧
        (noise_image image percent st).1.height = image.height ∧
        (noise_image image percent st).1.width = image.width) ∧
    (∀ (env : Env) (cfg : Config) (dl : DatasetLoader) (st : GState),
        cfg.min_cells ≤ cfg.max_cells → EnvOk env → GOK st →
        ∀ img ∈ (generate_and_save env cfg dl st).1,
          Bounded img ∧ img.height = cfg.img_size.1 ∧
          img.width = cfg.img_size.2) := by
  refine ⟨?_, ?_, ?_⟩
  · intro env cfg bg cell coord t st out st2 heq hb
    obtain ⟨out2, hov, hh, hw2, _, hbd⟩ := overlay_preserve env cfg bg cell coord t st
    rw [heq] at hov
    have : out = out2 := by
      injection hov with hov2
      exact congrArg Prod.fst hov2
    subst this
    exact ⟨hbd hb, hh, hw2⟩
  · intro image percent st hb hst
    obtain ⟨h1, h2, _, h4, _⟩ := noise_image_preserve image percent st hb hst
    exact ⟨h4, h1, h2⟩
  · intro env cfg dl st hmm henv hst
    obtain ⟨_, _, h3⟩ := genLoop_ok env cfg dl hmm henv cfg.num_imgs st hst
    intro img h
    exact ⟨(h3 img h).2.2.2, (h3 img h).1, (h3 img h).2.1⟩

/-- Witness for C9: the end-to-end invariant instantiated at a concrete run. -/
theorem C9_witness :
    ∀ img ∈ (generate_and_save envT ⟨(1, 1), 1, 0, 0⟩ dlT stT).1,
      Bounded img ∧ img.height = 1 ∧ img.width = 1 :=
  C9_range_and_shape_invariants.2.2 envT ⟨(1, 1), 1, 0, 0⟩ dlT stT (by decide)
    envT_ok stT_GOK
